import Mathlib

/-!
Verification of the IvyFocus audio engine
(src/lib/context/AudioContext.tsx, class AudioEngine with natural-sound
support) and of its sample-synthesis algorithms.

The engine is shallowly embedded as a pure state machine: JavaScript object
identity of Web-Audio nodes is modelled by a fresh-id allocator (nextId),
console.warn on the "mode not active" guard is modelled by the Bool returned
from the update operations, and buffer contents are opaque ids at the engine
level.  The sample-synthesis algorithms are modelled separately as pure
list-producing functions over an explicit random stream (rand i is the i-th
Math.random() draw, a value in [0, 1)); noise colors are generic over a
linear ordered field and are instantiated at the rationals, while the wind
and ocean textures use the reals because they evaluate a sine.
-/

namespace AudioEngine

/-- NoiseColor from src/lib/types/audio.ts. -/
inductive NoiseColor
  | white
  | pink
  | brown
  | green
deriving DecidableEq, Repr

/-- NaturalSound from src/lib/types/audio.ts. -/
inductive NaturalSound
  | none
  | wind
  | rain
  | ocean
deriving DecidableEq, Repr

/-- AudioMode from src/lib/types/audio.ts. -/
inductive AudioMode
  | binaural
  | noise
deriving DecidableEq, Repr

/-- BinauralParams: carrier, beat, volume. -/
structure BinauralParams where
  carrier : ℚ
  beat : ℚ
  volume : ℚ
deriving DecidableEq, Repr

/-- NoiseParams: color, volume, naturalSound, naturalSoundVolume. -/
structure NoiseParams where
  color : NoiseColor
  volume : ℚ
  naturalSound : NaturalSound
  naturalSoundVolume : ℚ
deriving DecidableEq, Repr

/-- Partial BinauralParams (each field optionally present). -/
structure PartialBinauralParams where
  carrier : Option ℚ
  beat : Option ℚ
  volume : Option ℚ
deriving DecidableEq, Repr

/-- Partial NoiseParams. -/
structure PartialNoiseParams where
  color : Option NoiseColor
  volume : Option ℚ
  naturalSound : Option NaturalSound
  naturalSoundVolume : Option ℚ
deriving DecidableEq, Repr

/-- OscillatorNode: identity plus the mutable frequency.value field. -/
structure OscillatorNode where
  id : ℕ
  frequency : ℚ
deriving DecidableEq, Repr

/-- GainNode: identity plus the mutable gain.value field. -/
structure GainNode where
  id : ℕ
  gain : ℚ
deriving DecidableEq, Repr

/-- StereoPannerNode: identity plus pan.value. -/
structure PannerNode where
  id : ℕ
  pan : ℚ
deriving DecidableEq, Repr

/-- AudioBufferSourceNode: identity, the buffer it plays (as a buffer id),
and the loop flag. -/
structure BufferSourceNode where
  id : ℕ
  buffer : ℕ
  loop : Bool
deriving DecidableEq, Repr

/-- The private fields of class AudioEngine.  `nextId` allocates fresh
node/buffer identities (JS object identity); `synthCount` counts, per noise
color, how many times generateNoiseBuffer ran (the synthesis-call counter
the spec proposes observing in tests). -/
structure EngineState where
  audioContextInit : Bool
  leftOscillator : Option OscillatorNode
  rightOscillator : Option OscillatorNode
  binauralGain : Option GainNode
  leftPanner : Option PannerNode
  rightPanner : Option PannerNode
  noiseSource : Option BufferSourceNode
  noiseGain : Option GainNode
  noiseBuffers : NoiseColor → Option ℕ
  naturalSoundSource : Option BufferSourceNode
  naturalSoundGain : Option GainNode
  naturalSoundFilter : Option ℕ
  naturalSoundLFO : Option ℕ
  naturalSoundLFOGain : Option ℕ
  naturalSoundBuffers : NaturalSound → Option ℕ
  mixer : Option GainNode
  mode : Option AudioMode
  isPlaying : Bool
  binauralParams : BinauralParams
  noiseParams : NoiseParams
  nextId : ℕ
  synthCount : NoiseColor → ℕ

/-- The state of the module-level singleton at load time. -/
def initialState : EngineState where
  audioContextInit := false
  leftOscillator := Option.none
  rightOscillator := Option.none
  binauralGain := Option.none
  leftPanner := Option.none
  rightPanner := Option.none
  noiseSource := Option.none
  noiseGain := Option.none
  noiseBuffers := fun _ => Option.none
  naturalSoundSource := Option.none
  naturalSoundGain := Option.none
  naturalSoundFilter := Option.none
  naturalSoundLFO := Option.none
  naturalSoundLFOGain := Option.none
  naturalSoundBuffers := fun _ => Option.none
  mixer := Option.none
  mode := Option.none
  isPlaying := false
  binauralParams := ⟨400, 10, 0.5⟩
  noiseParams := ⟨NoiseColor.white, 0.5, NaturalSound.none, 0.8⟩
  nextId := 0
  synthCount := fun _ => 0

/-- stopBinaural(): null every binaural node; clear mode/isPlaying only if
the current mode is binaural. -/
def stopBinaural (s0 : EngineState) : EngineState :=
  let s := { s0 with leftOscillator := Option.none, rightOscillator := Option.none,
                     leftPanner := Option.none, rightPanner := Option.none,
                     binauralGain := Option.none }
  if s.mode = some AudioMode.binaural then
    { s with mode := Option.none, isPlaying := false }
  else s

/-- stopNaturalSound(): null every natural-sound node. -/
def stopNaturalSound (s : EngineState) : EngineState :=
  { s with naturalSoundSource := Option.none, naturalSoundGain := Option.none,
           naturalSoundFilter := Option.none, naturalSoundLFO := Option.none,
           naturalSoundLFOGain := Option.none }

/-- stopNoise(): null noise nodes, stop the natural-sound layer, disconnect
the mixer; clear mode/isPlaying only if the current mode is noise. -/
def stopNoise (s0 : EngineState) : EngineState :=
  let s := stopNaturalSound { s0 with noiseSource := Option.none, noiseGain := Option.none }
  let s := { s with mixer := Option.none }
  if s.mode = some AudioMode.noise then
    { s with mode := Option.none, isPlaying := false }
  else s

/-- stop(): stopBinaural then stopNoise. -/
def stop (s : EngineState) : EngineState :=
  stopNoise (stopBinaural s)

/-- startBinaural(params): stop everything, lazily init the context, build
gain, two panners, two oscillators (left at carrier, right at
carrier + beat), record params, mark playing.  Node creation order follows
the source, reflected in the allocated ids. -/
def startBinaural (p : BinauralParams) (s0 : EngineState) : EngineState :=
  let s := stop s0
  let s := { s with audioContextInit := true }
  { s with binauralGain := some ⟨s.nextId, p.volume⟩,
           leftPanner := some ⟨s.nextId + 1, -1⟩,
           rightPanner := some ⟨s.nextId + 2, 1⟩,
           leftOscillator := some ⟨s.nextId + 3, p.carrier⟩,
           rightOscillator := some ⟨s.nextId + 4, p.carrier + p.beat⟩,
           nextId := s.nextId + 5,
           mode := some AudioMode.binaural,
           isPlaying := true,
           binauralParams := p }

/-- The JS object-spread merge { ...old, ...params } for binaural params. -/
def mergeBinaural (old : BinauralParams) (pp : PartialBinauralParams) : BinauralParams :=
  ⟨pp.carrier.getD old.carrier, pp.beat.getD old.beat, pp.volume.getD old.volume⟩

/-- updateBinaural(params).  Returns the new state and whether the
"Binaural mode not active" warning was reported (console.warn). -/
def updateBinaural (pp : PartialBinauralParams) (s0 : EngineState) : EngineState × Bool :=
  if s0.mode ≠ some AudioMode.binaural ∨ s0.isPlaying = false then
    (s0, true)
  else
    let newParams := mergeBinaural s0.binauralParams pp
    let s1 :=
      match pp.carrier with
      | Option.none => s0
      | some c =>
        let sa :=
          match s0.leftOscillator with
          | Option.none => s0
          | some osc => { s0 with leftOscillator := some { osc with frequency := c } }
        match sa.rightOscillator with
        | Option.none => sa
        | some osc => { sa with rightOscillator := some { osc with frequency := c + newParams.beat } }
    let s2 :=
      match pp.beat with
      | Option.none => s1
      | some b =>
        match s1.rightOscillator with
        | Option.none => s1
        | some osc => { s1 with rightOscillator := some { osc with frequency := newParams.carrier + b } }
    let s3 :=
      match pp.volume, s2.binauralGain with
      | some v, some g => { s2 with binauralGain := some { g with gain := v } }
      | _, _ => s2
    ({ s3 with binauralParams := newParams }, false)

/-- startNaturalSound(sound, volume): guarded on context, mixer presence and
sound not being none; fetch-or-generate the texture buffer, build gain and
looping source. -/
def startNaturalSound (sound : NaturalSound) (volume : ℚ) (s0 : EngineState) : EngineState :=
  if s0.audioContextInit = false ∨ s0.mixer = Option.none ∨ sound = NaturalSound.none then
    s0
  else
    let s1 :=
      if s0.naturalSoundBuffers sound = Option.none then
        { s0 with naturalSoundBuffers :=
                    fun k => if k = sound then some s0.nextId else s0.naturalSoundBuffers k,
                  nextId := s0.nextId + 1 }
      else s0
    let buf := (s1.naturalSoundBuffers sound).getD 0
    { s1 with naturalSoundGain := some ⟨s1.nextId, volume⟩,
              naturalSoundSource := some ⟨s1.nextId + 1, buf, true⟩,
              nextId := s1.nextId + 2 }

/-- startNoise(params): stop everything, init context, build the mixer,
fetch-or-generate the color buffer (bumping the synthesis counter on a
miss), build noise gain and looping source, start the texture layer when
requested, record params, mark playing. -/
def startNoise (p : NoiseParams) (s0 : EngineState) : EngineState :=
  let s1 := stop s0
  let s2 := { s1 with audioContextInit := true,
                      mixer := some ⟨s1.nextId, 1⟩,
                      nextId := s1.nextId + 1 }
  let s3 :=
    if s2.noiseBuffers p.color = Option.none then
      { s2 with noiseBuffers :=
                  fun c => if c = p.color then some s2.nextId else s2.noiseBuffers c,
                synthCount :=
                  fun c => if c = p.color then s2.synthCount c + 1 else s2.synthCount c,
                nextId := s2.nextId + 1 }
    else s2
  let buf := (s3.noiseBuffers p.color).getD 0
  let s4 := { s3 with noiseGain := some ⟨s3.nextId, p.volume⟩,
                      noiseSource := some ⟨s3.nextId + 1, buf, true⟩,
                      nextId := s3.nextId + 2 }
  let s5 :=
    if p.naturalSound ≠ NaturalSound.none then
      startNaturalSound p.naturalSound p.naturalSoundVolume s4
    else s4
  { s5 with mode := some AudioMode.noise, isPlaying := true, noiseParams := p }

/-- The JS object-spread merge for noise params. -/
def mergeNoise (old : NoiseParams) (pp : PartialNoiseParams) : NoiseParams :=
  ⟨pp.color.getD old.color, pp.volume.getD old.volume,
   pp.naturalSound.getD old.naturalSound, pp.naturalSoundVolume.getD old.naturalSoundVolume⟩

/-- updateNoise(params).  Returns the new state and whether the
"Noise mode not active" warning was reported.  A changed color delegates to
startNoise with the merged params (full restart); a changed natural sound
rebuilds only the texture layer; volumes mutate the live gains. -/
def updateNoise (pp : PartialNoiseParams) (s0 : EngineState) : EngineState × Bool :=
  if s0.mode ≠ some AudioMode.noise ∨ s0.isPlaying = false then
    (s0, true)
  else
    let newParams := mergeNoise s0.noiseParams pp
    if pp.color.isSome ∧ pp.color ≠ some s0.noiseParams.color then
      (startNoise newParams s0, false)
    else
      let s1 :=
        if pp.naturalSound.isSome ∧ pp.naturalSound ≠ some s0.noiseParams.naturalSound then
          let sa := stopNaturalSound s0
          match pp.naturalSound with
          | some ns =>
            if ns ≠ NaturalSound.none then startNaturalSound ns newParams.naturalSoundVolume sa
            else sa
          | Option.none => sa
        else s0
      let s2 :=
        match pp.volume, s1.noiseGain with
        | some v, some g => { s1 with noiseGain := some { g with gain := v } }
        | _, _ => s1
      let s3 :=
        match pp.naturalSoundVolume, s2.naturalSoundGain with
        | some v, some g => { s2 with naturalSoundGain := some { g with gain := v } }
        | _, _ => s2
      ({ s3 with noiseParams := newParams }, false)

/-- One call on the public engine facade. -/
inductive Op
  | startBinauralOp (p : BinauralParams)
  | updateBinauralOp (pp : PartialBinauralParams)
  | stopBinauralOp
  | startNoiseOp (p : NoiseParams)
  | updateNoiseOp (pp : PartialNoiseParams)
  | stopNoiseOp
  | stopOp

/-- State transition of one facade call (warnings discarded). -/
def applyOp : Op → EngineState → EngineState
  | Op.startBinauralOp p, s => startBinaural p s
  | Op.updateBinauralOp pp, s => (updateBinaural pp s).1
  | Op.stopBinauralOp, s => stopBinaural s
  | Op.startNoiseOp p, s => startNoise p s
  | Op.updateNoiseOp pp, s => (updateNoise pp s).1
  | Op.stopNoiseOp, s => stopNoise s
  | Op.stopOp, s => stop s

/-- Run a sequence of facade calls. -/
def run (ops : List Op) (s : EngineState) : EngineState :=
  ops.foldl (fun t op => applyOp op t) s

/-- A state reachable through the public API from the freshly loaded
singleton. -/
def Reachable (s : EngineState) : Prop :=
  ∃ ops : List Op, run ops initialState = s

/-- State after startNoise with white noise plus an active wind texture. -/
def noiseWindState : EngineState :=
  startNoise ⟨NoiseColor.white, 1/2, NaturalSound.wind, 4/5⟩ initialState

/-- State after a pink color change on noiseWindState. -/
def noiseWindStateAfterPink : EngineState :=
  (updateNoise ⟨some NoiseColor.pink, Option.none, Option.none, Option.none⟩ noiseWindState).1

/-- Invariant tying live oscillator frequencies to the stored binaural params. -/
def BinActive (s : EngineState) : Prop :=
  s.mode = some AudioMode.binaural ∧ s.isPlaying = true ∧
  (∃ osc, s.leftOscillator = some osc ∧ osc.frequency = s.binauralParams.carrier) ∧
  (∃ osc, s.rightOscillator = some osc ∧
    osc.frequency = s.binauralParams.carrier + s.binauralParams.beat)

/-- One pass of foldl over updateBinaural calls. -/
def runUpdates (pps : List PartialBinauralParams) (s : EngineState) : EngineState :=
  pps.foldl (fun t pp => (updateBinaural pp t).1) s

/-- generateWhiteNoise: channel[i] = random()*2 - 1, with rand i the i-th
Math.random() draw (in [0,1)). -/
def generateWhiteNoise {α : Type} [LinearOrderedField α] (rand : ℕ → α) (n : ℕ) : List α :=
  (List.range n).map (fun i => rand i * 2 - 1)

/-- The seven Kellet filter accumulators of generatePinkNoise. -/
structure PinkState (α : Type) where
  b0 : α
  b1 : α
  b2 : α
  b3 : α
  b4 : α
  b5 : α
  b6 : α

/-- One loop iteration of generatePinkNoise: updates the accumulators from a
white sample and emits pink * 0.11. -/
def pinkStep {α : Type} [LinearOrderedField α] (st : PinkState α) (white : α) :
    PinkState α × α :=
  let b0 := 0.99886 * st.b0 + white * 0.0555179
  let b1 := 0.99332 * st.b1 + white * 0.0750759
  let b2 := 0.96900 * st.b2 + white * 0.1538520
  let b3 := 0.86650 * st.b3 + white * 0.3104856
  let b4 := 0.55000 * st.b4 + white * 0.5329522
  let b5 := -0.7616 * st.b5 - white * 0.0168980
  let pink := b0 + b1 + b2 + b3 + b4 + b5 + st.b6 + white * 0.5362
  let b6 := white * 0.115926
  (⟨b0, b1, b2, b3, b4, b5, b6⟩, pink * 0.11)

/-- Loop of generatePinkNoise over the remaining sample count. -/
def pinkAux {α : Type} [LinearOrderedField α] (rand : ℕ → α) :
    ℕ → ℕ → PinkState α → List α
  | _, 0, _ => []
  | i, m + 1, st =>
    let white := rand i * 2 - 1
    let next := pinkStep st white
    next.2 :: pinkAux rand (i + 1) m next.1

/-- generatePinkNoise (Paul Kellet refined method). -/
def generatePinkNoise {α : Type} [LinearOrderedField α] (rand : ℕ → α) (n : ℕ) : List α :=
  pinkAux rand 0 n ⟨0, 0, 0, 0, 0, 0, 0⟩

/-- Loop of generateBrownNoise carrying lastOut (the pre-3.5 value). -/
def brownAux {α : Type} [LinearOrderedField α] (rand : ℕ → α) : ℕ → ℕ → α → List α
  | _, 0, _ => []
  | i, m + 1, lastOut =>
    let white := rand i * 2 - 1
    let v := (lastOut + 0.02 * white) / 1.02
    v * 3.5 :: brownAux rand (i + 1) m v

/-- generateBrownNoise: leaky integrator with 3.5 makeup gain. -/
def generateBrownNoise {α : Type} [LinearOrderedField α] (rand : ℕ → α) (n : ℕ) : List α :=
  brownAux rand 0 n 0

/-- The in-place smoothing loop of generateGreenNoise: channel[i] gets the
average of the already-updated left neighbour, itself and the original right
neighbour; the last element is left unchanged. -/
def greenSmooth {α : Type} [LinearOrderedField α] : α → List α → List α
  | _, [] => []
  | _, [x] => [x]
  | prev, x :: y :: rest =>
    let v := (prev + x + y) / 3
    v :: greenSmooth v (y :: rest)

/-- generateGreenNoise: pink noise then the 3-tap smoothing pass starting at
index 1 (element 0 unchanged). -/
def generateGreenNoise {α : Type} [LinearOrderedField α] (rand : ℕ → α) (n : ℕ) : List α :=
  match generatePinkNoise rand n with
  | [] => []
  | x :: rest => x :: greenSmooth x rest

/-- generateNoiseBuffer: a stereo pair of independently generated channels;
the right channel consumes the draws after the left channel's n draws. -/
def generateNoiseBuffer {α : Type} [LinearOrderedField α] (color : NoiseColor)
    (rand : ℕ → α) (n : ℕ) : List α × List α :=
  let gen := fun (r : ℕ → α) =>
    match color with
    | NoiseColor.white => generateWhiteNoise r n
    | NoiseColor.pink => generatePinkNoise r n
    | NoiseColor.brown => generateBrownNoise r n
    | NoiseColor.green => generateGreenNoise r n
  (gen rand, gen (fun i => rand (n + i)))

-- length lemmas

/-- Fixed-point bounds of the six Kellet accumulators and the b6 delay. -/
def pinkB0 : ℚ := 0.0555179 / (1 - 0.99886)

def pinkB1 : ℚ := 0.0750759 / (1 - 0.99332)

def pinkB2 : ℚ := 0.1538520 / (1 - 0.96900)

def pinkB3 : ℚ := 0.3104856 / (1 - 0.86650)

def pinkB4 : ℚ := 0.5329522 / (1 - 0.55000)

def pinkB5 : ℚ := 0.0168980 / (1 - 0.7616)

def pinkB6 : ℚ := 0.115926

/-- Worst-case magnitude of a pink (and green) noise sample. -/
def pinkAmpBound : ℚ :=
  0.11 * (pinkB0 + pinkB1 + pinkB2 + pinkB3 + pinkB4 + pinkB5 + pinkB6 + 0.5362)

/-- All seven accumulators within their fixed-point bounds. -/
def PinkBounded (st : PinkState ℚ) : Prop :=
  |st.b0| ≤ pinkB0 ∧ |st.b1| ≤ pinkB1 ∧ |st.b2| ≤ pinkB2 ∧ |st.b3| ≤ pinkB3 ∧
  |st.b4| ≤ pinkB4 ∧ |st.b5| ≤ pinkB5 ∧ |st.b6| ≤ pinkB6

/-- Per-color worst-case sample magnitude. -/
def noiseBound : NoiseColor → ℚ
  | NoiseColor.white => 1
  | NoiseColor.pink => pinkAmpBound
  | NoiseColor.brown => 7/2
  | NoiseColor.green => pinkAmpBound

/-- Indexed map, modelling a JS for-loop writing channel[i] from channel[i]. -/
def idxMapFrom {α β : Type} (f : ℕ → α → β) : ℕ → List α → List β
  | _, [] => []
  | i, x :: xs => f i x :: idxMapFrom f (i + 1) xs

def idxMap {α β : Type} (f : ℕ → α → β) (l : List α) : List β := idxMapFrom f 0 l

/-- The slow sinusoidal gust envelope of generateWindSound; n is the buffer
length (4 seconds, so sampleRate = n / 4) and i the sample index. -/
noncomputable def windGustMod (n i : ℕ) : ℝ :=
  0.3 + 0.7 * Real.sin (2 * Real.pi * 0.15 * ((i : ℝ) / ((n : ℝ) / 4)))

/-- Loop of generateWindSound from index 1, carrying the previous output
sample for the one-pole low-pass. -/
noncomputable def windAux (rand : ℕ → ℝ) (n : ℕ) : ℕ → ℕ → ℝ → List ℝ
  | _, 0, _ => []
  | i, m + 1, prev =>
    let white := rand i * 2 - 1
    let v := (white * 0.3 + prev * 0.7) * windGustMod n i * 1.2
    v :: windAux rand n (i + 1) m v

/-- generateWindSound: low-passed white noise, gust-modulated, boosted. -/
noncomputable def generateWindSound (rand : ℕ → ℝ) (n : ℕ) : List ℝ :=
  match n with
  | 0 => []
  | m + 1 =>
    let white := rand 0 * 2 - 1
    let v := white * windGustMod (m + 1) 0 * 1.2
    v :: windAux rand (m + 1) 1 m v

/-- The three ocean wave frequencies (Hz) of generateOceanSound. -/
def oceanSwellFreq : ℚ := 0.125

def oceanMainFreq : ℚ := 0.25

def oceanRippleFreq : ℚ := 0.5

def oceanWaveFreqs : List ℚ := [oceanSwellFreq, oceanMainFreq, oceanRippleFreq]

/-- The combined three-sinusoid wave modulation at time t seconds. -/
noncomputable def oceanWaveMod (t : ℝ) : ℝ :=
  let slowSwell := 0.15 * Real.sin (2 * Real.pi * (oceanSwellFreq : ℝ) * t)
  let mainWave := 0.25 * Real.sin (2 * Real.pi * (oceanMainFreq : ℝ) * t)
  let ripples := 0.1 * Real.sin (2 * Real.pi * (oceanRippleFreq : ℝ) * t + 0.5)
  0.5 + 0.5 * (slowSwell + mainWave + ripples)

/-- Math.max(0.4, Math.min(1.0, waveMod)). -/
noncomputable def oceanClampedMod (t : ℝ) : ℝ := max 0.4 (min 1.0 (oceanWaveMod t))

/-- Ocean channel after the brown-noise base and the modulation pass, before
the loop-boundary crossfade. -/
noncomputable def oceanPreFade (rand : ℕ → ℝ) (n : ℕ) : List ℝ :=
  idxMap (fun i x => x * (oceanClampedMod ((i : ℝ) / ((n : ℝ) / 4)) * 0.9))
    (generateBrownNoise rand n)

/-- The two crossfade loops of generateOceanSound: indices below 5% scaled
by i/cf, indices in the last 5% scaled by (length - i)/cf. -/
noncomputable def applyOceanCrossfade (ch : List ℝ) : List ℝ :=
  idxMap (fun i x =>
    if i < ch.length / 20 then x * ((i : ℝ) / ((ch.length / 20 : ℕ) : ℝ))
    else if ch.length - ch.length / 20 ≤ i then
      x * (((ch.length : ℝ) - (i : ℝ)) / ((ch.length / 20 : ℕ) : ℝ))
    else x) ch

/-- generateOceanSound: modulated brown noise with edge crossfade. -/
noncomputable def generateOceanSound (rand : ℕ → ℝ) (n : ℕ) : List ℝ :=
  applyOceanCrossfade (oceanPreFade rand n)

/-- The crossfade envelope as a standalone function of buffer length and
sample index. -/
noncomputable def oceanFadeEnv (n i : ℕ) : ℝ :=
  if i < n / 20 then (i : ℝ) / ((n / 20 : ℕ) : ℝ)
  else if n - n / 20 ≤ i then ((n : ℝ) - (i : ℝ)) / ((n / 20 : ℕ) : ℝ)
  else 1

theorem stop_mode (s : EngineState) : (stop s).mode = Option.none := by
  unfold stop stopNoise stopBinaural stopNaturalSound
  rcases hm : s.mode with _ | m
  · simp [hm]
  · cases m <;> simp [hm]

theorem stop_nodes (s : EngineState) :
    (stop s).leftOscillator = Option.none ∧ (stop s).rightOscillator = Option.none ∧
    (stop s).binauralGain = Option.none ∧ (stop s).leftPanner = Option.none ∧
    (stop s).rightPanner = Option.none ∧ (stop s).noiseSource = Option.none ∧
    (stop s).noiseGain = Option.none ∧ (stop s).naturalSoundSource = Option.none ∧
    (stop s).naturalSoundGain = Option.none ∧ (stop s).naturalSoundFilter = Option.none ∧
    (stop s).naturalSoundLFO = Option.none ∧ (stop s).naturalSoundLFOGain = Option.none ∧
    (stop s).mixer = Option.none := by
  unfold stop stopNoise stopBinaural stopNaturalSound
  rcases hm : s.mode with _ | m
  · simp [hm]
  · cases m <;> simp [hm]

theorem stop_isPlaying (s : EngineState) (h : s.isPlaying = true → s.mode ≠ Option.none) :
    (stop s).isPlaying = false := by
  unfold stop stopNoise stopBinaural stopNaturalSound
  rcases hm : s.mode with _ | m
  · have : s.isPlaying = false := by
      by_contra hh
      exact (h (by simpa using hh)) hm
    simp [hm, this]
  · cases m <;> simp [hm]

theorem stop_idem (s : EngineState) : stop (stop s) = stop s := by
  rcases s with ⟨ac, lo, ro, bg, lp, rp, ns, ng, nb, nss, nsg, nsf, lfo, lfog, nsb, mx, mode, play, bp, np, nid, sc⟩
  rcases mode with _ | m
  · simp [stop, stopNoise, stopBinaural, stopNaturalSound]
  · cases m <;> simp [stop, stopNoise, stopBinaural, stopNaturalSound]

theorem updateBinaural_modePlay (pp : PartialBinauralParams) (s : EngineState) :
    (updateBinaural pp s).1.mode = s.mode ∧ (updateBinaural pp s).1.isPlaying = s.isPlaying := by
  unfold updateBinaural
  split
  · exact ⟨rfl, rfl⟩
  · dsimp only
    constructor <;> (repeat' split) <;> rfl

theorem startNaturalSound_core (snd : NaturalSound) (v : ℚ) (s : EngineState) :
    (startNaturalSound snd v s).mode = s.mode ∧
    (startNaturalSound snd v s).isPlaying = s.isPlaying ∧
    (startNaturalSound snd v s).noiseBuffers = s.noiseBuffers ∧
    (startNaturalSound snd v s).synthCount = s.synthCount ∧
    (startNaturalSound snd v s).noiseSource = s.noiseSource ∧
    (startNaturalSound snd v s).noiseGain = s.noiseGain ∧
    (startNaturalSound snd v s).mixer = s.mixer ∧
    (startNaturalSound snd v s).audioContextInit = s.audioContextInit := by
  unfold startNaturalSound
  (repeat' split) <;> simp

theorem stopNaturalSound_mode (s : EngineState) : (stopNaturalSound s).mode = s.mode := rfl

theorem stopNaturalSound_isPlaying (s : EngineState) :
    (stopNaturalSound s).isPlaying = s.isPlaying := rfl

theorem startNaturalSound_mode (snd : NaturalSound) (v : ℚ) (s : EngineState) :
    (startNaturalSound snd v s).mode = s.mode := (startNaturalSound_core snd v s).1

theorem startNaturalSound_isPlaying (snd : NaturalSound) (v : ℚ) (s : EngineState) :
    (startNaturalSound snd v s).isPlaying = s.isPlaying := (startNaturalSound_core snd v s).2.1

theorem updateNoise_modePlay (pp : PartialNoiseParams) (s : EngineState) :
    ((updateNoise pp s).1.mode = s.mode ∧ (updateNoise pp s).1.isPlaying = s.isPlaying) ∨
    ((updateNoise pp s).1.mode = some AudioMode.noise ∧ (updateNoise pp s).1.isPlaying = true) := by
  unfold updateNoise
  split
  · exact Or.inl ⟨rfl, rfl⟩
  · dsimp only
    split
    · exact Or.inr ⟨rfl, rfl⟩
    · refine Or.inl ?_
      constructor <;> (repeat' split) <;>
        simp [stopNaturalSound_mode, stopNaturalSound_isPlaying,
          startNaturalSound_mode, startNaturalSound_isPlaying, stopNaturalSound]

theorem applyOp_inv (op : Op) (s : EngineState)
    (h : s.isPlaying = true → s.mode ≠ Option.none) :
    (applyOp op s).isPlaying = true → (applyOp op s).mode ≠ Option.none := by
  cases op with
  | startBinauralOp p => intro _; simp [applyOp, startBinaural]
  | updateBinauralOp pp =>
    have hm := (updateBinaural_modePlay pp s).1
    have hp := (updateBinaural_modePlay pp s).2
    intro hplay
    simp only [applyOp] at hplay ⊢
    rw [hm]; exact h (hp ▸ hplay)
  | stopBinauralOp =>
    intro hplay
    simp only [applyOp, stopBinaural] at hplay ⊢
    rcases hm : s.mode with _ | m
    · simp [hm] at hplay ⊢
      exact absurd hm (h hplay)
    · cases m
      · simp [hm] at hplay
      · simp [hm] at hplay ⊢
  | startNoiseOp p => intro _; simp [applyOp, startNoise]
  | updateNoiseOp pp =>
    rcases updateNoise_modePlay pp s with ⟨hm, hp⟩ | ⟨hm, hp⟩
    · intro hplay
      simp only [applyOp] at hplay ⊢
      rw [hm]; exact h (hp ▸ hplay)
    · intro _
      simp only [applyOp] at hm ⊢
      simp [hm]
  | stopNoiseOp =>
    intro hplay
    simp only [applyOp, stopNoise, stopNaturalSound] at hplay ⊢
    rcases hm : s.mode with _ | m
    · simp [hm] at hplay ⊢
      exact absurd hm (h hplay)
    · cases m
      · simp [hm] at hplay ⊢
      · simp [hm] at hplay
  | stopOp =>
    intro hplay
    simp only [applyOp] at hplay
    have := stop_isPlaying s h
    rw [this] at hplay
    exact absurd hplay (by simp)

theorem run_inv (ops : List Op) (s : EngineState)
    (h : s.isPlaying = true → s.mode ≠ Option.none) :
    (run ops s).isPlaying = true → (run ops s).mode ≠ Option.none := by
  induction ops generalizing s with
  | nil => exact h
  | cons op rest ih => exact ih (applyOp op s) (applyOp_inv op s h)

theorem reachable_inv (s : EngineState) (h : Reachable s) :
    s.isPlaying = true → s.mode ≠ Option.none := by
  obtain ⟨ops, hops⟩ := h
  subst hops
  exact run_inv ops initialState (by intro hp; simp [initialState] at hp)

/-- C3: from every state reachable through the public API, stop() leaves the
engine with mode cleared, isPlaying false and every graph-node field null,
and a second stop() leaves the state unchanged (idempotence). -/
theorem stop_total_idempotent (s : EngineState) (h : Reachable s) :
    (stop s).mode = Option.none ∧ (stop s).isPlaying = false ∧
    (stop s).leftOscillator = Option.none ∧ (stop s).rightOscillator = Option.none ∧
    (stop s).binauralGain = Option.none ∧ (stop s).leftPanner = Option.none ∧
    (stop s).rightPanner = Option.none ∧ (stop s).noiseSource = Option.none ∧
    (stop s).noiseGain = Option.none ∧ (stop s).naturalSoundSource = Option.none ∧
    (stop s).naturalSoundGain = Option.none ∧ (stop s).naturalSoundFilter = Option.none ∧
    (stop s).naturalSoundLFO = Option.none ∧ (stop s).naturalSoundLFOGain = Option.none ∧
    (stop s).mixer = Option.none ∧ stop (stop s) = stop s := by
  have hn := stop_nodes s
  exact ⟨stop_mode s, stop_isPlaying s (reachable_inv s h), hn.1, hn.2.1, hn.2.2.1,
    hn.2.2.2.1, hn.2.2.2.2.1, hn.2.2.2.2.2.1, hn.2.2.2.2.2.2.1, hn.2.2.2.2.2.2.2.1,
    hn.2.2.2.2.2.2.2.2.1, hn.2.2.2.2.2.2.2.2.2.1, hn.2.2.2.2.2.2.2.2.2.2.1,
    hn.2.2.2.2.2.2.2.2.2.2.2.1, hn.2.2.2.2.2.2.2.2.2.2.2.2, stop_idem s⟩

/-- C3 witness: the theorem applied at the reachable initial state. -/
theorem stop_total_idempotent_witness :
    (stop initialState).mode = Option.none ∧ (stop initialState).isPlaying = false ∧
    (stop initialState).leftOscillator = Option.none ∧ (stop initialState).rightOscillator = Option.none ∧
    (stop initialState).binauralGain = Option.none ∧ (stop initialState).leftPanner = Option.none ∧
    (stop initialState).rightPanner = Option.none ∧ (stop initialState).noiseSource = Option.none ∧
    (stop initialState).noiseGain = Option.none ∧ (stop initialState).naturalSoundSource = Option.none ∧
    (stop initialState).naturalSoundGain = Option.none ∧ (stop initialState).naturalSoundFilter = Option.none ∧
    (stop initialState).naturalSoundLFO = Option.none ∧ (stop initialState).naturalSoundLFOGain = Option.none ∧
    (stop initialState).mixer = Option.none ∧ stop (stop initialState) = stop initialState :=
  stop_total_idempotent initialState ⟨[], rfl⟩

/-- C4: after startBinaural with carrier 400, beat 10, volume 0.5 followed by
updateBinaural with beat 16, the left oscillator frequency is still 400 and
the right oscillator frequency is 416 = carrier + beat. -/
theorem binaural_beat_update_frequencies :
    ((updateBinaural ⟨Option.none, some 16, Option.none⟩
        (startBinaural ⟨400, 10, 1/2⟩ initialState)).1.leftOscillator.map OscillatorNode.frequency
      = some 400) ∧
    ((updateBinaural ⟨Option.none, some 16, Option.none⟩
        (startBinaural ⟨400, 10, 1/2⟩ initialState)).1.rightOscillator.map OscillatorNode.frequency
      = some 416) := by
  constructor <;>
    · simp only [updateBinaural, startBinaural, stop, stopNoise, stopBinaural, stopNaturalSound,
        mergeBinaural, initialState]
      norm_num

/-- C5: updateBinaural outside an active Binaural mode, and updateNoise
outside an active Noise mode, report the "mode not active" condition (the
returned Bool, modelling console.warn) and return the state entirely
unchanged. -/
theorem update_requires_active_mode (s : EngineState)
    (pb : PartialBinauralParams) (pn : PartialNoiseParams) :
    ((s.mode ≠ some AudioMode.binaural ∨ s.isPlaying = false) →
      updateBinaural pb s = (s, true)) ∧
    ((s.mode ≠ some AudioMode.noise ∨ s.isPlaying = false) →
      updateNoise pn s = (s, true)) := by
  constructor
  · intro h
    unfold updateBinaural
    rw [if_pos h]
  · intro h
    unfold updateNoise
    rw [if_pos h]

/-- C5 witness: both no-ops observed on the idle initial state. -/
theorem update_requires_active_mode_witness :
    updateBinaural ⟨some 300, Option.none, Option.none⟩ initialState = (initialState, true) ∧
    updateNoise ⟨some NoiseColor.pink, Option.none, Option.none, Option.none⟩ initialState
      = (initialState, true) :=
  ⟨(update_requires_active_mode initialState ⟨some 300, Option.none, Option.none⟩
      ⟨some NoiseColor.pink, Option.none, Option.none, Option.none⟩).1 (by simp [initialState]),
   (update_requires_active_mode initialState ⟨some 300, Option.none, Option.none⟩
      ⟨some NoiseColor.pink, Option.none, Option.none, Option.none⟩).2 (by simp [initialState])⟩

theorem startNaturalSound_noiseBuffers (snd : NaturalSound) (v : ℚ) (s : EngineState) :
    (startNaturalSound snd v s).noiseBuffers = s.noiseBuffers :=
  (startNaturalSound_core snd v s).2.2.1

theorem startNaturalSound_synthCount (snd : NaturalSound) (v : ℚ) (s : EngineState) :
    (startNaturalSound snd v s).synthCount = s.synthCount :=
  (startNaturalSound_core snd v s).2.2.2.1

theorem startNaturalSound_noiseSource (snd : NaturalSound) (v : ℚ) (s : EngineState) :
    (startNaturalSound snd v s).noiseSource = s.noiseSource :=
  (startNaturalSound_core snd v s).2.2.2.2.1

theorem startNaturalSound_active (snd : NaturalSound) (v : ℚ) (s : EngineState)
    (h1 : s.audioContextInit = true) (h2 : s.mixer ≠ Option.none)
    (h3 : snd ≠ NaturalSound.none) :
    ((startNaturalSound snd v s).naturalSoundSource).isSome = true := by
  unfold startNaturalSound
  rw [if_neg (by simp [h1, h2, h3])]
  dsimp only
  split <;> simp

theorem startNoise_mode (p : NoiseParams) (s : EngineState) :
    (startNoise p s).mode = some AudioMode.noise := rfl

theorem startNoise_isPlaying (p : NoiseParams) (s : EngineState) :
    (startNoise p s).isPlaying = true := rfl

theorem startNoise_noiseParams (p : NoiseParams) (s : EngineState) :
    (startNoise p s).noiseParams = p := rfl

theorem startNoise_source_buffer (p : NoiseParams) (s : EngineState) :
    (startNoise p s).noiseSource.map BufferSourceNode.buffer
      = (startNoise p s).noiseBuffers p.color ∧
    ((startNoise p s).noiseBuffers p.color).isSome = true := by
  unfold startNoise
  dsimp only
  by_cases hmiss : (stop s).noiseBuffers p.color = Option.none
  · rw [if_pos hmiss]
    split <;> simp [startNaturalSound_noiseBuffers, startNaturalSound_noiseSource]
  · rw [if_neg hmiss]
    rcases Option.ne_none_iff_exists.mp hmiss with ⟨b, hb⟩
    split <;>
      simp [startNaturalSound_noiseBuffers, startNaturalSound_noiseSource, hb.symm]

theorem startNoise_natural_active (p : NoiseParams) (s : EngineState)
    (h : p.naturalSound ≠ NaturalSound.none) :
    ((startNoise p s).naturalSoundSource).isSome = true := by
  unfold startNoise
  dsimp only
  rw [if_pos h]
  apply startNaturalSound_active
  · split <;> rfl
  · split <;> simp
  · exact h

/-- C1 counterexample: with white noise plus a wind texture playing,
updateNoise changing the color to pink rebuilds the texture source node and
the mixer (fresh node identities), so the texture layer and mix bus are not
left untouched as the claim states. -/
theorem noise_color_change_counterexample :
    noiseWindStateAfterPink.naturalSoundSource.map BufferSourceNode.id
        ≠ noiseWindState.naturalSoundSource.map BufferSourceNode.id ∧
    noiseWindStateAfterPink.mixer.map GainNode.id
        ≠ noiseWindState.mixer.map GainNode.id := by
  decide

/-- C1 amended: a color change while Noise mode is playing restarts the whole
noise mode via startNoise with the merged params: afterwards the engine is
again playing Noise with the new color, the noise source reads the new
color buffer from the cache, and a previously active texture layer is
active again, but as freshly built nodes rather than untouched ones. -/
theorem noise_color_change_restarts (s : EngineState) (c : NoiseColor)
    (hm : s.mode = some AudioMode.noise) (hp : s.isPlaying = true)
    (hc : c ≠ s.noiseParams.color) :
    (updateNoise ⟨some c, Option.none, Option.none, Option.none⟩ s).1
      = startNoise ⟨c, s.noiseParams.volume, s.noiseParams.naturalSound,
          s.noiseParams.naturalSoundVolume⟩ s ∧
    (updateNoise ⟨some c, Option.none, Option.none, Option.none⟩ s).1.mode
      = some AudioMode.noise ∧
    (updateNoise ⟨some c, Option.none, Option.none, Option.none⟩ s).1.isPlaying = true ∧
    (updateNoise ⟨some c, Option.none, Option.none, Option.none⟩ s).1.noiseParams
      = ⟨c, s.noiseParams.volume, s.noiseParams.naturalSound, s.noiseParams.naturalSoundVolume⟩ ∧
    (updateNoise ⟨some c, Option.none, Option.none, Option.none⟩ s).1.noiseSource.map
        BufferSourceNode.buffer
      = (updateNoise ⟨some c, Option.none, Option.none, Option.none⟩ s).1.noiseBuffers c ∧
    ((updateNoise ⟨some c, Option.none, Option.none, Option.none⟩ s).1.noiseBuffers c).isSome
      = true ∧
    (s.noiseParams.naturalSound ≠ NaturalSound.none →
      ((updateNoise ⟨some c, Option.none, Option.none, Option.none⟩ s).1.naturalSoundSource).isSome
        = true) := by
  have hbranch :
      (updateNoise ⟨some c, Option.none, Option.none, Option.none⟩ s).1
        = startNoise ⟨c, s.noiseParams.volume, s.noiseParams.naturalSound,
            s.noiseParams.naturalSoundVolume⟩ s := by
    unfold updateNoise
    rw [if_neg (by simp [hm, hp])]
    dsimp only
    rw [if_pos (by simp [hc])]
    rfl
  rw [hbranch]
  refine ⟨rfl, startNoise_mode _ _, startNoise_isPlaying _ _, startNoise_noiseParams _ _,
    ?_, ?_, ?_⟩
  · exact (startNoise_source_buffer _ _).1
  · exact (startNoise_source_buffer _ _).2
  · intro h
    exact startNoise_natural_active _ _ h

/-- C1 amended witness: the amended theorem applied to the concrete
white-plus-wind state with a pink color change. -/
theorem noise_color_change_restarts_witness :
    (updateNoise ⟨some NoiseColor.pink, Option.none, Option.none, Option.none⟩
        noiseWindState).1.mode = some AudioMode.noise ∧
    ((updateNoise ⟨some NoiseColor.pink, Option.none, Option.none, Option.none⟩
        noiseWindState).1.naturalSoundSource).isSome = true :=
  ⟨(noise_color_change_restarts noiseWindState NoiseColor.pink (by decide) (by decide)
      (by decide)).2.1,
   (noise_color_change_restarts noiseWindState NoiseColor.pink (by decide) (by decide)
      (by decide)).2.2.2.2.2.2 (by decide)⟩

theorem stopBinaural_noiseBuffers (s : EngineState) :
    (stopBinaural s).noiseBuffers = s.noiseBuffers := by
  unfold stopBinaural; dsimp only; split <;> rfl

theorem stopNoise_noiseBuffers (s : EngineState) :
    (stopNoise s).noiseBuffers = s.noiseBuffers := by
  unfold stopNoise stopNaturalSound; dsimp only; split <;> rfl

theorem stop_noiseBuffers (s : EngineState) : (stop s).noiseBuffers = s.noiseBuffers := by
  rw [stop, stopNoise_noiseBuffers, stopBinaural_noiseBuffers]

theorem stopBinaural_synthCount (s : EngineState) :
    (stopBinaural s).synthCount = s.synthCount := by
  unfold stopBinaural; dsimp only; split <;> rfl

theorem stopNoise_synthCount (s : EngineState) :
    (stopNoise s).synthCount = s.synthCount := by
  unfold stopNoise stopNaturalSound; dsimp only; split <;> rfl

theorem stop_synthCount (s : EngineState) : (stop s).synthCount = s.synthCount := by
  rw [stop, stopNoise_synthCount, stopBinaural_synthCount]

theorem updateBinaural_noiseBuffers (pp : PartialBinauralParams) (s : EngineState) :
    (updateBinaural pp s).1.noiseBuffers = s.noiseBuffers := by
  unfold updateBinaural
  split
  · rfl
  · dsimp only; (repeat' split) <;> rfl

theorem startNoise_buffers_mono (p : NoiseParams) (s : EngineState) (c : NoiseColor) (b : ℕ)
    (h : s.noiseBuffers c = some b) : (startNoise p s).noiseBuffers c = some b := by
  have hs := stop_noiseBuffers s
  unfold startNoise
  dsimp only
  by_cases hmiss : (stop s).noiseBuffers p.color = Option.none
  · rw [if_pos hmiss]
    have hcp : ¬c = p.color := by
      intro hcp
      subst hcp
      rw [hs, h] at hmiss
      exact Option.noConfusion hmiss
    split <;> simp [startNaturalSound_noiseBuffers, hcp, hs, h]
  · rw [if_neg hmiss]
    split <;> simp [startNaturalSound_noiseBuffers, hs, h]

theorem updateNoise_buffers_mono (pp : PartialNoiseParams) (s : EngineState) (c : NoiseColor)
    (b : ℕ) (h : s.noiseBuffers c = some b) : (updateNoise pp s).1.noiseBuffers c = some b := by
  unfold updateNoise
  split
  · exact h
  · dsimp only
    split
    · exact startNoise_buffers_mono _ _ _ _ h
    · (repeat' split) <;> simp [startNaturalSound_noiseBuffers, stopNaturalSound, h]

theorem stop_nextId (s : EngineState) : (stop s).nextId = s.nextId := by
  unfold stop stopNoise stopBinaural stopNaturalSound
  rcases hm : s.mode with _ | m
  · simp [hm]
  · cases m <;> simp [hm]

theorem startNoise_miss (p : NoiseParams) (s : EngineState)
    (hmiss : s.noiseBuffers p.color = Option.none) :
    (startNoise p s).synthCount p.color = s.synthCount p.color + 1 ∧
    (startNoise p s).noiseBuffers p.color = some (s.nextId + 1) := by
  have hb := stop_noiseBuffers s
  have hc := stop_synthCount s
  have hn := stop_nextId s
  have hmiss2 : (stop s).noiseBuffers p.color = Option.none := by rw [hb]; exact hmiss
  unfold startNoise
  dsimp only
  rw [if_pos hmiss2]
  constructor <;>
    split <;>
      simp [startNaturalSound_noiseBuffers, startNaturalSound_synthCount, hb, hc, hn]

theorem startNoise_hit (p : NoiseParams) (s : EngineState)
    (hhit : s.noiseBuffers p.color ≠ Option.none) :
    (startNoise p s).synthCount = s.synthCount ∧
    (startNoise p s).noiseBuffers = s.noiseBuffers := by
  have hb := stop_noiseBuffers s
  have hc := stop_synthCount s
  have hhit2 : ¬(stop s).noiseBuffers p.color = Option.none := by rw [hb]; exact hhit
  unfold startNoise
  dsimp only
  rw [if_neg hhit2]
  constructor <;>
    split <;> simp [startNaturalSound_noiseBuffers, startNaturalSound_synthCount, hb, hc]

/-- C6: the noise-color buffer cache is monotone (an entry, once written, is
preserved by every public operation, so it is written at most once and never
invalidated), and the startNoise, stopNoise, startNoise sequence with one
color synthesizes exactly once and reuses the cached buffer. -/
theorem noise_buffer_cache_write_once :
    (∀ (op : Op) (s : EngineState) (c : NoiseColor) (b : ℕ),
        s.noiseBuffers c = some b → (applyOp op s).noiseBuffers c = some b) ∧
    ∀ p : NoiseParams,
      (startNoise p (stopNoise (startNoise p initialState))).synthCount p.color = 1 ∧
      (startNoise p (stopNoise (startNoise p initialState))).noiseBuffers p.color
        = (startNoise p initialState).noiseBuffers p.color ∧
      (startNoise p (stopNoise (startNoise p initialState))).noiseSource.map
          BufferSourceNode.buffer
        = (startNoise p initialState).noiseBuffers p.color := by
  constructor
  · intro op s c b h
    cases op with
    | startBinauralOp p =>
      show (startBinaural p s).noiseBuffers c = some b
      simp only [startBinaural]
      rw [stop_noiseBuffers]
      exact h
    | updateBinauralOp pp => exact (updateBinaural_noiseBuffers pp s) ▸ h
    | stopBinauralOp => exact (stopBinaural_noiseBuffers s) ▸ h
    | startNoiseOp p => exact startNoise_buffers_mono p s c b h
    | updateNoiseOp pp => exact updateNoise_buffers_mono pp s c b h
    | stopNoiseOp => exact (stopNoise_noiseBuffers s) ▸ h
    | stopOp => exact (stop_noiseBuffers s) ▸ h
  · intro p
    have h0 : initialState.noiseBuffers p.color = Option.none := rfl
    have m1 := startNoise_miss p initialState h0
    have ht2b := stopNoise_noiseBuffers (startNoise p initialState)
    have ht2s := stopNoise_synthCount (startNoise p initialState)
    have hhit : (stopNoise (startNoise p initialState)).noiseBuffers p.color ≠ Option.none := by
      rw [ht2b, m1.2]; exact Option.noConfusion
    have m3 := startNoise_hit p (stopNoise (startNoise p initialState)) hhit
    refine ⟨?_, ?_, ?_⟩
    · rw [m3.1, ht2s, m1.1]
      rfl
    · rw [m3.2, ht2b]
    · rw [(startNoise_source_buffer p (stopNoise (startNoise p initialState))).1, m3.2, ht2b]

/-- C6 witness: cache monotonicity applied to stopNoise on a state whose
white entry is populated. -/
theorem noise_buffer_cache_write_once_witness :
    (applyOp Op.stopNoiseOp
        (startNoise ⟨NoiseColor.white, 1/2, NaturalSound.none, 4/5⟩ initialState)).noiseBuffers
      NoiseColor.white = some 1 :=
  noise_buffer_cache_write_once.1 Op.stopNoiseOp
    (startNoise ⟨NoiseColor.white, 1/2, NaturalSound.none, 4/5⟩ initialState)
    NoiseColor.white 1 (by decide)

theorem startBinaural_binActive (p : BinauralParams) (s : EngineState) :
    BinActive (startBinaural p s) :=
  ⟨rfl, rfl, ⟨_, rfl, rfl⟩, ⟨_, rfl, rfl⟩⟩

theorem updateBinaural_binActive (pp : PartialBinauralParams) (s : EngineState)
    (h : BinActive s) : BinActive (updateBinaural pp s).1 := by
  obtain ⟨hm, hp, ⟨lo, hlo, hlf⟩, ⟨ro, hro, hrf⟩⟩ := h
  unfold updateBinaural
  rw [if_neg (by simp [hm, hp])]
  dsimp only
  (repeat' split) <;>
    refine ⟨hm, hp, ?_, ?_⟩ <;>
      simp_all [mergeBinaural, BinActive]

theorem runUpdates_binActive (pps : List PartialBinauralParams) (s : EngineState)
    (h : BinActive s) : BinActive (runUpdates pps s) := by
  induction pps generalizing s with
  | nil => exact h
  | cons pp rest ih => exact ih _ (updateBinaural_binActive pp s h)

/-- C10: after startBinaural and any sequence of updateBinaural calls, the
left oscillator frequency equals the stored carrier and the right oscillator
frequency equals the stored carrier plus the stored beat. -/
theorem binaural_frequencies_track_params (s0 : EngineState) (p : BinauralParams)
    (pps : List PartialBinauralParams) :
    (runUpdates pps (startBinaural p s0)).leftOscillator.map OscillatorNode.frequency
      = some (runUpdates pps (startBinaural p s0)).binauralParams.carrier ∧
    (runUpdates pps (startBinaural p s0)).rightOscillator.map OscillatorNode.frequency
      = some ((runUpdates pps (startBinaural p s0)).binauralParams.carrier
          + (runUpdates pps (startBinaural p s0)).binauralParams.beat) := by
  obtain ⟨_, _, ⟨lo, hlo, hlf⟩, ⟨ro, hro, hrf⟩⟩ :=
    runUpdates_binActive pps (startBinaural p s0) (startBinaural_binActive p s0)
  rw [hlo, hro]
  simp [hlf, hrf]

theorem generateWhiteNoise_length {α : Type} [LinearOrderedField α] (rand : ℕ → α) (n : ℕ) :
    (generateWhiteNoise rand n).length = n := by
  simp [generateWhiteNoise]

theorem pinkAux_length {α : Type} [LinearOrderedField α] (rand : ℕ → α) :
    ∀ (m i : ℕ) (st : PinkState α), (pinkAux rand i m st).length = m := by
  intro m
  induction m with
  | zero => intro i st; rfl
  | succ m ih => intro i st; simp [pinkAux, ih]

theorem generatePinkNoise_length {α : Type} [LinearOrderedField α] (rand : ℕ → α) (n : ℕ) :
    (generatePinkNoise rand n).length = n :=
  pinkAux_length rand n 0 _

theorem brownAux_length {α : Type} [LinearOrderedField α] (rand : ℕ → α) :
    ∀ (m i : ℕ) (l : α), (brownAux rand i m l).length = m := by
  intro m
  induction m with
  | zero => intro i l; rfl
  | succ m ih => intro i l; simp [brownAux, ih]

theorem generateBrownNoise_length {α : Type} [LinearOrderedField α] (rand : ℕ → α) (n : ℕ) :
    (generateBrownNoise rand n).length = n :=
  brownAux_length rand n 0 0

theorem greenSmooth_length {α : Type} [LinearOrderedField α] :
    ∀ (l : List α) (prev : α), (greenSmooth prev l).length = l.length := by
  intro l
  induction l with
  | nil => intro prev; rfl
  | cons x rest ih =>
    intro prev
    cases rest with
    | nil => rfl
    | cons y rest2 => simp [greenSmooth, ih]

theorem generateGreenNoise_length {α : Type} [LinearOrderedField α] (rand : ℕ → α) (n : ℕ) :
    (generateGreenNoise rand n).length = n := by
  unfold generateGreenNoise
  rcases hp : generatePinkNoise rand n with _ | ⟨x, rest⟩ <;>
    have := generatePinkNoise_length rand n <;> rw [hp] at this
  · simpa using this
  · simpa [greenSmooth_length] using this

/-- Worst-case magnitude of a leaky accumulator b := d*b + w*g with |w| <= 1:
if d*B + g <= B and |b| <= B then the update stays within B. -/
theorem decay_step_bound (d g a w B : ℚ) (hd : 0 ≤ d) (hg : 0 ≤ g)
    (ha : |a| ≤ B) (hw : |w| ≤ 1) (hB : d * B + g ≤ B) :
    |d * a + w * g| ≤ B := by
  have h1 : |d * a + w * g| ≤ |d * a| + |w * g| := abs_add _ _
  have h2 : |d * a| = d * |a| := by rw [abs_mul, abs_of_nonneg hd]
  have h3 : |w * g| = |w| * g := by rw [abs_mul, abs_of_nonneg hg]
  nlinarith [abs_nonneg a, abs_nonneg w]

theorem pinkStep_bounded (st : PinkState ℚ) (w : ℚ) (hw : |w| ≤ 1)
    (h : PinkBounded st) :
    PinkBounded (pinkStep st w).1 ∧ |(pinkStep st w).2| ≤ pinkAmpBound := by
  obtain ⟨h0, h1, h2, h3, h4, h5, h6⟩ := h
  have e0 : |0.99886 * st.b0 + w * 0.0555179| ≤ pinkB0 :=
    decay_step_bound _ _ _ _ _ (by norm_num) (by norm_num) h0 hw (by norm_num [pinkB0])
  have e1 : |0.99332 * st.b1 + w * 0.0750759| ≤ pinkB1 :=
    decay_step_bound _ _ _ _ _ (by norm_num) (by norm_num) h1 hw (by norm_num [pinkB1])
  have e2 : |0.96900 * st.b2 + w * 0.1538520| ≤ pinkB2 :=
    decay_step_bound _ _ _ _ _ (by norm_num) (by norm_num) h2 hw (by norm_num [pinkB2])
  have e3 : |0.86650 * st.b3 + w * 0.3104856| ≤ pinkB3 :=
    decay_step_bound _ _ _ _ _ (by norm_num) (by norm_num) h3 hw (by norm_num [pinkB3])
  have e4 : |0.55000 * st.b4 + w * 0.5329522| ≤ pinkB4 :=
    decay_step_bound _ _ _ _ _ (by norm_num) (by norm_num) h4 hw (by norm_num [pinkB4])
  have e5 : |(-0.7616 : ℚ) * st.b5 - w * 0.0168980| ≤ pinkB5 := by
    have hneg : (-0.7616 : ℚ) * st.b5 - w * 0.0168980
        = -(0.7616 * st.b5 + w * 0.0168980) := by ring
    rw [hneg, abs_neg]
    exact decay_step_bound _ _ _ _ _ (by norm_num) (by norm_num) h5 hw (by norm_num [pinkB5])
  have e6 : |w * 0.115926| ≤ pinkB6 := by
    rw [abs_mul, abs_of_nonneg (show (0:ℚ) ≤ 0.115926 by norm_num)]
    simp only [pinkB6]
    nlinarith [abs_nonneg w]
  have hws : |w * 0.5362| ≤ (0.5362 : ℚ) := by
    rw [abs_mul, abs_of_nonneg (show (0:ℚ) ≤ 0.5362 by norm_num)]
    nlinarith [abs_nonneg w]
  refine ⟨⟨e0, e1, e2, e3, e4, e5, e6⟩, ?_⟩
  obtain ⟨l0, u0⟩ := abs_le.mp e0
  obtain ⟨l1, u1⟩ := abs_le.mp e1
  obtain ⟨l2, u2⟩ := abs_le.mp e2
  obtain ⟨l3, u3⟩ := abs_le.mp e3
  obtain ⟨l4, u4⟩ := abs_le.mp e4
  obtain ⟨l5, u5⟩ := abs_le.mp e5
  obtain ⟨l6, u6⟩ := abs_le.mp h6
  obtain ⟨lw, uw⟩ := abs_le.mp hws
  have hS : |0.99886 * st.b0 + w * 0.0555179 + (0.99332 * st.b1 + w * 0.0750759) +
      (0.96900 * st.b2 + w * 0.1538520) + (0.86650 * st.b3 + w * 0.3104856) +
      (0.55000 * st.b4 + w * 0.5329522) + (-0.7616 * st.b5 - w * 0.0168980) +
      st.b6 + w * 0.5362|
      ≤ pinkB0 + pinkB1 + pinkB2 + pinkB3 + pinkB4 + pinkB5 + pinkB6 + 0.5362 := by
    rw [abs_le]
    constructor <;> linarith
  show |(0.99886 * st.b0 + w * 0.0555179 + (0.99332 * st.b1 + w * 0.0750759) +
      (0.96900 * st.b2 + w * 0.1538520) + (0.86650 * st.b3 + w * 0.3104856) +
      (0.55000 * st.b4 + w * 0.5329522) + (-0.7616 * st.b5 - w * 0.0168980) +
      st.b6 + w * 0.5362) * 0.11| ≤ pinkAmpBound
  rw [abs_mul, abs_of_nonneg (show (0:ℚ) ≤ 0.11 by norm_num)]
  calc |0.99886 * st.b0 + w * 0.0555179 + (0.99332 * st.b1 + w * 0.0750759) +
      (0.96900 * st.b2 + w * 0.1538520) + (0.86650 * st.b3 + w * 0.3104856) +
      (0.55000 * st.b4 + w * 0.5329522) + (-0.7616 * st.b5 - w * 0.0168980) +
      st.b6 + w * 0.5362| * 0.11
      ≤ (pinkB0 + pinkB1 + pinkB2 + pinkB3 + pinkB4 + pinkB5 + pinkB6 + 0.5362) * 0.11 :=
        mul_le_mul_of_nonneg_right hS (by norm_num)
    _ = pinkAmpBound := by rw [pinkAmpBound]; ring

theorem white_of_unit (r : ℚ) (hr : 0 ≤ r ∧ r < 1) : |r * 2 - 1| ≤ 1 := by
  rw [abs_le]
  constructor <;> nlinarith [hr.1, hr.2]

theorem generateWhiteNoise_bound (rand : ℕ → ℚ) (n : ℕ)
    (hr : ∀ i, 0 ≤ rand i ∧ rand i < 1) :
    ∀ x ∈ generateWhiteNoise rand n, |x| ≤ 1 := by
  intro x hx
  simp only [generateWhiteNoise, List.mem_map, List.mem_range] at hx
  obtain ⟨i, _, rfl⟩ := hx
  exact white_of_unit (rand i) (hr i)

theorem pinkAux_bound (rand : ℕ → ℚ) (hr : ∀ i, 0 ≤ rand i ∧ rand i < 1) :
    ∀ (m i : ℕ) (st : PinkState ℚ), PinkBounded st →
      ∀ x ∈ pinkAux rand i m st, |x| ≤ pinkAmpBound := by
  intro m
  induction m with
  | zero => intro i st _ x hx; simp [pinkAux] at hx
  | succ m ih =>
    intro i st hst x hx
    have hw : |rand i * 2 - 1| ≤ 1 := white_of_unit (rand i) (hr i)
    have hstep := pinkStep_bounded st (rand i * 2 - 1) hw hst
    simp only [pinkAux, List.mem_cons] at hx
    rcases hx with rfl | hx
    · exact hstep.2
    · exact ih (i + 1) _ hstep.1 x hx

theorem generatePinkNoise_bound (rand : ℕ → ℚ) (n : ℕ)
    (hr : ∀ i, 0 ≤ rand i ∧ rand i < 1) :
    ∀ x ∈ generatePinkNoise rand n, |x| ≤ pinkAmpBound := by
  intro x hx
  exact pinkAux_bound rand hr n 0 ⟨0, 0, 0, 0, 0, 0, 0⟩
    (by refine ⟨?_, ?_, ?_, ?_, ?_, ?_, ?_⟩ <;> norm_num [pinkB0, pinkB1, pinkB2, pinkB3, pinkB4, pinkB5, pinkB6]) x hx

theorem brownAux_bound (rand : ℕ → ℚ) (hr : ∀ i, 0 ≤ rand i ∧ rand i < 1) :
    ∀ (m i : ℕ) (l : ℚ), |l| ≤ 1 → ∀ x ∈ brownAux rand i m l, |x| ≤ 7/2 := by
  intro m
  induction m with
  | zero => intro i l _ x hx; simp [brownAux] at hx
  | succ m ih =>
    intro i l hl x hx
    have hw : |rand i * 2 - 1| ≤ 1 := white_of_unit (rand i) (hr i)
    have hv : |(l + 0.02 * (rand i * 2 - 1)) / 1.02| ≤ 1 := by
      rw [abs_div, abs_of_nonneg (show (0:ℚ) ≤ 1.02 by norm_num), div_le_iff₀ (by norm_num)]
      calc |l + 0.02 * (rand i * 2 - 1)| ≤ |l| + |0.02 * (rand i * 2 - 1)| := abs_add _ _
        _ ≤ 1 + 0.02 := by
            rw [abs_mul, abs_of_nonneg (show (0:ℚ) ≤ 0.02 by norm_num)]
            nlinarith [abs_nonneg (rand i * 2 - 1)]
        _ = 1 * 1.02 := by norm_num
    simp only [brownAux, List.mem_cons] at hx
    rcases hx with rfl | hx
    · rw [abs_mul, abs_of_nonneg (show (0:ℚ) ≤ 3.5 by norm_num)]
      nlinarith [hv]
    · exact ih (i + 1) _ hv x hx

theorem generateBrownNoise_bound (rand : ℕ → ℚ) (n : ℕ)
    (hr : ∀ i, 0 ≤ rand i ∧ rand i < 1) :
    ∀ x ∈ generateBrownNoise rand n, |x| ≤ 7/2 := by
  intro x hx
  exact brownAux_bound rand hr n 0 0 (by norm_num) x hx

theorem greenSmooth_bound (B : ℚ) :
    ∀ (l : List ℚ) (prev : ℚ), |prev| ≤ B → (∀ x ∈ l, |x| ≤ B) →
      ∀ y ∈ greenSmooth prev l, |y| ≤ B := by
  intro l
  induction l with
  | nil => intro prev _ _ y hy; simp [greenSmooth] at hy
  | cons x rest ih =>
    intro prev hp hl y hy
    cases rest with
    | nil =>
      simp only [greenSmooth, List.mem_singleton] at hy
      subst hy
      exact hl y (by simp)
    | cons z rest2 =>
      simp only [greenSmooth, List.mem_cons] at hy
      have hx : |x| ≤ B := hl x (by simp)
      have hz : |z| ≤ B := hl z (by simp)
      have hv : |(prev + x + z) / 3| ≤ B := by
        rw [abs_div, abs_of_nonneg (show (0:ℚ) ≤ 3 by norm_num),
          div_le_iff₀ (by norm_num)]
        calc |prev + x + z| ≤ |prev + x| + |z| := abs_add _ _
          _ ≤ |prev| + |x| + |z| := by nlinarith [abs_add prev x]
          _ ≤ B * 3 := by linarith
      rcases hy with rfl | hy
      · exact hv
      · exact ih ((prev + x + z) / 3) hv
          (fun a ha => hl a (List.mem_cons_of_mem x ha)) y hy

theorem generateGreenNoise_bound (rand : ℕ → ℚ) (n : ℕ)
    (hr : ∀ i, 0 ≤ rand i ∧ rand i < 1) :
    ∀ x ∈ generateGreenNoise rand n, |x| ≤ pinkAmpBound := by
  intro x hx
  unfold generateGreenNoise at hx
  rcases hp : generatePinkNoise rand n with _ | ⟨h, rest⟩ <;> rw [hp] at hx
  · simp at hx
  · have hall : ∀ a ∈ h :: rest, |a| ≤ pinkAmpBound := by
      rw [← hp]; exact generatePinkNoise_bound rand n hr
    simp only [List.mem_cons] at hx
    rcases hx with rfl | hx
    · exact hall x (by simp)
    · exact greenSmooth_bound pinkAmpBound rest h (hall h (by simp))
        (fun a ha => hall a (List.mem_cons_of_mem h ha)) x hx

theorem noiseChannel_bound (color : NoiseColor) (rand : ℕ → ℚ) (n : ℕ)
    (hr : ∀ i, 0 ≤ rand i ∧ rand i < 1) :
    ∀ x ∈ (generateNoiseBuffer color rand n).1, |x| ≤ noiseBound color := by
  cases color with
  | white => exact generateWhiteNoise_bound rand n hr
  | pink => exact generatePinkNoise_bound rand n hr
  | brown => exact generateBrownNoise_bound rand n hr
  | green => exact generateGreenNoise_bound rand n hr

theorem noiseChannel_length (color : NoiseColor) (rand : ℕ → ℚ) (n : ℕ) :
    (generateNoiseBuffer color rand n).1.length = n := by
  cases color with
  | white => exact generateWhiteNoise_length rand n
  | pink => exact generatePinkNoise_length rand n
  | brown => exact generateBrownNoise_length rand n
  | green => exact generateGreenNoise_length rand n

/-- C9 amended: for every color and every random stream in [0, 1), a
generated noise buffer has exactly n samples per channel, and every sample
is bounded by a color-dependent constant: 1 for white, 3.5 for brown, and
the Kellet fixed-point bound for pink and green (the uniform 1.5 bound of
the original claim fails, see the counterexample). -/
theorem noise_buffer_length_and_bounds (color : NoiseColor) (rand : ℕ → ℚ) (n : ℕ)
    (hr : ∀ i, 0 ≤ rand i ∧ rand i < 1) :
    (generateNoiseBuffer color rand n).1.length = n ∧
    (generateNoiseBuffer color rand n).2.length = n ∧
    (∀ x ∈ (generateNoiseBuffer color rand n).1, |x| ≤ noiseBound color) ∧
    (∀ x ∈ (generateNoiseBuffer color rand n).2, |x| ≤ noiseBound color) := by
  have hr2 : ∀ i, 0 ≤ (fun j => rand (n + j)) i ∧ (fun j => rand (n + j)) i < 1 :=
    fun i => hr (n + i)
  have hsnd : (generateNoiseBuffer color rand n).2
      = (generateNoiseBuffer color (fun j => rand (n + j)) n).1 := by
    cases color <;> rfl
  refine ⟨noiseChannel_length color rand n, ?_, noiseChannel_bound color rand n hr, ?_⟩
  · rw [hsnd]; exact noiseChannel_length color _ n
  · rw [hsnd]; exact noiseChannel_bound color _ n hr2

/-- C9 witness: the amended theorem at white noise, the zero stream and
n = 2. -/
theorem noise_buffer_length_and_bounds_witness :
    (generateNoiseBuffer NoiseColor.white (fun _ => (0:ℚ)) 2).1.length = 2 ∧
    (generateNoiseBuffer NoiseColor.white (fun _ => (0:ℚ)) 2).2.length = 2 ∧
    (∀ x ∈ (generateNoiseBuffer NoiseColor.white (fun _ => (0:ℚ)) 2).1,
      |x| ≤ noiseBound NoiseColor.white) ∧
    (∀ x ∈ (generateNoiseBuffer NoiseColor.white (fun _ => (0:ℚ)) 2).2,
      |x| ≤ noiseBound NoiseColor.white) :=
  noise_buffer_length_and_bounds NoiseColor.white (fun _ => (0:ℚ)) 2
    (fun _ => ⟨le_refl 0, by norm_num⟩)

/-- With every random draw equal to 0 (so every white sample is -1), the
brown-noise integrator follows the closed form below. -/
theorem brownAux_const_zero :
    ∀ (m i : ℕ) (l : ℚ), brownAux (fun _ => (0:ℚ)) i m l =
      (List.range m).map (fun j => 3.5 * ((l + 1) * (50/51)^(j+1) - 1)) := by
  intro m
  induction m with
  | zero => intro i l; rfl
  | succ m ih =>
    intro i l
    rw [List.range_succ_eq_map]
    simp only [brownAux, List.map_cons, List.map_map]
    refine List.cons_eq_cons.mpr ⟨?_, ?_⟩
    · norm_num
      ring
    · rw [ih]
      apply List.map_congr_left
      intro j _
      simp only [Function.comp_apply]
      have hv : ((l + 0.02 * ((0:ℚ) * 2 - 1)) / 1.02) = (l + 1) * (50/51) - 1 := by
        norm_num
        ring
      rw [hv]
      simp only [pow_succ]
      ring

/-- C9 counterexample: with every random draw 0, the 29th brown-noise sample
is -3.5 * (1 - (50/51)^29), which is below -1.5, refuting the claimed
[-1.5, 1.5] bound. -/
theorem brown_noise_exceeds_soft_bound :
    ∃ x ∈ (generateNoiseBuffer NoiseColor.brown (fun _ => (0:ℚ)) 29).1, x < -(3/2) := by
  show ∃ x ∈ generateBrownNoise (fun _ => (0:ℚ)) 29, x < -(3/2)
  rw [generateBrownNoise, brownAux_const_zero]
  refine ⟨3.5 * (((0:ℚ) + 1) * (50/51)^(28+1) - 1), ?_, ?_⟩
  · simp only [List.mem_map, List.mem_range]
    exact ⟨28, by norm_num, rfl⟩
  · norm_num

theorem idxMapFrom_length {α β : Type} (f : ℕ → α → β) :
    ∀ (l : List α) (i : ℕ), (idxMapFrom f i l).length = l.length := by
  intro l
  induction l with
  | nil => intro i; rfl
  | cons x xs ih => intro i; simp [idxMapFrom, ih]

theorem idxMap_length {α β : Type} (f : ℕ → α → β) (l : List α) :
    (idxMap f l).length = l.length := idxMapFrom_length f l 0

theorem idxMapFrom_get {α β : Type} (f : ℕ → α → β) :
    ∀ (l : List α) (i j : ℕ), (idxMapFrom f i l).get? j = (l.get? j).map (f (i + j)) := by
  intro l
  induction l with
  | nil => intro i j; simp [idxMapFrom]
  | cons x xs ih =>
    intro i j
    cases j with
    | zero => simp [idxMapFrom]
    | succ j =>
      simp only [idxMapFrom, List.get?_cons_succ]
      rw [ih]
      have hidx : i + 1 + j = i + (j + 1) := by omega
      rw [hidx]

theorem idxMap_get {α β : Type} (f : ℕ → α → β) (l : List α) (j : ℕ) :
    (idxMap f l).get? j = (l.get? j).map (f j) := by
  rw [idxMap, idxMapFrom_get, Nat.zero_add]

theorem oceanPreFade_length (rand : ℕ → ℝ) (n : ℕ) : (oceanPreFade rand n).length = n := by
  rw [oceanPreFade, idxMap_length, generateBrownNoise_length]

/-- C2 amended: the ocean texture is the pre-fade signal scaled pointwise by
the crossfade envelope, whose value at sample 0 is 0, which increases
monotonically over the first 5% of samples and decreases monotonically over
the last 5%; wind and rain apply no such fade (see the counterexample). -/
theorem ocean_edge_crossfade (rand : ℕ → ℝ) (n : ℕ) (hn : 20 ≤ n) :
    (∀ i, (generateOceanSound rand n).get? i
      = ((oceanPreFade rand n).get? i).map (fun x => x * oceanFadeEnv n i)) ∧
    oceanFadeEnv n 0 = 0 ∧
    (∀ i j, i ≤ j → j < n / 20 → oceanFadeEnv n i ≤ oceanFadeEnv n j) ∧
    (∀ i j, n - n / 20 ≤ i → i ≤ j → j < n → oceanFadeEnv n j ≤ oceanFadeEnv n i) := by
  have hlen : (oceanPreFade rand n).length = n := oceanPreFade_length rand n
  have hcf1 : 1 ≤ n / 20 := (Nat.one_le_div_iff (by norm_num)).mpr hn
  have hcfpos : (0 : ℝ) < ((n / 20 : ℕ) : ℝ) := by
    have : (0 : ℕ) < n / 20 := hcf1
    exact_mod_cast this
  have h2cf : n / 20 + n / 20 ≤ n := by
    have h1 : n / 20 * 20 ≤ n := Nat.div_mul_le_self n 20
    omega
  refine ⟨?_, ?_, ?_, ?_⟩
  · intro i
    rw [generateOceanSound, applyOceanCrossfade, idxMap_get, hlen]
    cases hx : (oceanPreFade rand n).get? i with
    | none => rfl
    | some x =>
      simp only [Option.map_some']
      congr 1
      rw [oceanFadeEnv]
      by_cases h1 : i < n / 20
      · rw [if_pos h1, if_pos h1]
      · rw [if_neg h1, if_neg h1]
        by_cases h2 : n - n / 20 ≤ i
        · rw [if_pos h2, if_pos h2]
        · rw [if_neg h2, if_neg h2, mul_one]
  · rw [oceanFadeEnv, if_pos (show 0 < n / 20 by omega)]
    simp
  · intro i j hij hj
    rw [oceanFadeEnv, oceanFadeEnv, if_pos (lt_of_le_of_lt hij hj), if_pos hj]
    exact (div_le_div_iff_of_pos_right hcfpos).mpr (by exact_mod_cast hij)
  · intro i j hi hij hj
    have hnoti : ¬ i < n / 20 := by omega
    have hnotj : ¬ j < n / 20 := by omega
    have hj2 : n - n / 20 ≤ j := le_trans hi hij
    rw [oceanFadeEnv, oceanFadeEnv, if_neg hnoti, if_neg hnotj, if_pos hi, if_pos hj2]
    refine (div_le_div_iff_of_pos_right hcfpos).mpr ?_
    have hij2 : (i : ℝ) ≤ (j : ℝ) := by exact_mod_cast hij
    linarith

/-- C2 amended witness: the envelope of a 40-sample ocean buffer starts at
zero. -/
theorem ocean_edge_crossfade_witness :
    (20 ≤ 40) ∧ oceanFadeEnv 40 0 = 0 :=
  ⟨by norm_num, (ocean_edge_crossfade (fun _ => (0:ℝ)) 40 (by norm_num)).2.1⟩

/-- C2 counterexample: the wind texture applies no edge fade: with every
random draw 0 its first sample is -0.36, not scaled toward zero, refuting
the claim that all three textures fade their first 5% from zero. -/
theorem wind_first_sample_unfaded :
    (generateWindSound (fun _ => (0:ℝ)) 40).head? = some (-(9/25)) ∧
    ((-(9/25) : ℝ)) ≠ 0 := by
  constructor
  · have hred : generateWindSound (fun _ => (0:ℝ)) 40
        = (((0:ℝ) * 2 - 1) * windGustMod 40 0 * 1.2)
            :: windAux (fun _ => (0:ℝ)) 40 1 39
                (((0:ℝ) * 2 - 1) * windGustMod 40 0 * 1.2) := rfl
    rw [hred, List.head?_cons]
    have hg : windGustMod 40 0 = 0.3 := by
      rw [windGustMod]
      norm_num
    rw [hg]
    norm_num
  · norm_num

/-- C7 counterexample: not every ocean wave frequency completes an integer
number of cycles over the 4-second buffer: the slow swell at 0.125 Hz
completes only half a cycle. -/
theorem ocean_swell_not_integer_cycles :
    ¬ ∀ f ∈ oceanWaveFreqs, ∃ k : ℕ, f * 4 = (k : ℚ) := by
  intro h
  obtain ⟨k, hk⟩ := h oceanSwellFreq (by simp [oceanWaveFreqs])
  rw [oceanSwellFreq] at hk
  have h2 : ((2 * k : ℕ) : ℚ) = 1 := by push_cast; linarith
  have h3 : 2 * k = 1 := by exact_mod_cast h2
  omega

/-- C7 amended: the main wave (0.25 Hz) and the ripples (0.5 Hz) complete 1
and 2 full cycles over the 4-second buffer, the slow swell (0.125 Hz)
completes only half a cycle, and the combined modulation is clamped to
[0.4, 1.0] before the 0.9 scale. -/
theorem ocean_modulation_cycles_and_clamp :
    oceanMainFreq * 4 = 1 ∧ oceanRippleFreq * 4 = 2 ∧ oceanSwellFreq * 4 = 1/2 ∧
    (∀ k : ℕ, (k : ℚ) ≠ 1/2) ∧
    (∀ t : ℝ, 0.4 ≤ oceanClampedMod t ∧ oceanClampedMod t ≤ 1) := by
  refine ⟨by norm_num [oceanMainFreq], by norm_num [oceanRippleFreq],
    by norm_num [oceanSwellFreq], ?_, ?_⟩
  · intro k hk
    rcases k with _ | k
    · norm_num at hk
    · have h1 : ((k : ℚ) + 1) = 1/2 := by push_cast at hk; linarith
      have h2 : (0 : ℚ) ≤ (k : ℚ) := Nat.cast_nonneg k
      linarith
  · intro t
    constructor
    · exact le_max_left _ _
    · refine max_le (by norm_num) (le_trans (min_le_left _ _) (by norm_num))

/-- C7 amended witness: the integer cycle counts instantiated, and the swell
half-cycle value applied at k = 2. -/
theorem ocean_modulation_cycles_and_clamp_witness :
    oceanMainFreq * 4 = 1 ∧ ((2 : ℕ) : ℚ) ≠ 1/2 :=
  ⟨ocean_modulation_cycles_and_clamp.1, ocean_modulation_cycles_and_clamp.2.2.2.1 2⟩

/-- C8: the gust envelope 0.3 + 0.7 * sin(2 * pi * 0.15 * t) of the wind
texture is negative at sample 171500 of a 176400-sample buffer (t = 35/9 s),
contradicting the claim (and the code comment) that it stays within
[0.3, 1.0]: the code is at odds with its own documentation. -/
theorem wind_gust_envelope_negative :
    windGustMod 176400 171500 = -(1/20) ∧ windGustMod 176400 171500 < 3/10 ∧
    windGustMod 176400 171500 < 0 ∧ 171500 < 176400 := by
  have key : windGustMod 176400 171500 = -(1/20) := by
    rw [windGustMod]
    have harg : 2 * Real.pi * 0.15 * (((171500 : ℕ) : ℝ) / (((176400 : ℕ) : ℝ) / 4))
        = Real.pi + Real.pi / 6 := by
      have hq : ((171500 : ℕ) : ℝ) / (((176400 : ℕ) : ℝ) / 4) = 35 / 9 := by
        norm_num
      rw [hq]
      ring
    rw [harg]
    have hsin : Real.sin (Real.pi + Real.pi / 6) = -(1/2) := by
      rw [Real.sin_add, Real.sin_pi, Real.cos_pi, Real.sin_pi_div_six]
      ring
    rw [hsin]
    norm_num
  refine ⟨key, ?_, ?_, by norm_num⟩ <;> rw [key] <;> norm_num

end AudioEngine
